import Mathlib

/-!
Shallow embedding of the OpenCode-Qwen-Proxy plugin (TypeScript) into Lean 4.

Sources embedded here:
* `src/plugin/auth.ts` — `saveCredentials`, `loadCredentials` (the pure core;
  the filesystem read/write is modelled by passing the stored record in/out).
* `src/index.ts` (the enhanced version shipped in the repository) —
  `runtimeAuthToCredentials`, `getExpiryScore`, `mergeCredentialSources`,
  `getValidAccessToken`, `resetTokenCache`, the loader `fetch` wrapper
  (401/403 and 429 handling), and the device-flow polling loop.
* `src/plugin/request-queue.ts` is not included in the repository snapshot;
  the queue is modelled from the spec (see `enqueueDispatch`).

JavaScript conventions are made explicit: optional values are `Option`,
machine numbers (epoch milliseconds) are `Int`, string/number truthiness
(`""` and `0` are falsy) is captured by `jsPresent` / `jsTruthyInt` and the
`||` operator by `jsOrStr` / `jsOrInt` / `jsOrStringDefault`.
-/

namespace QwenProxy

/-- JS truthiness for an optional string: `undefined`/`null` and `""` are falsy. -/
def jsPresent (s : Option String) : Bool :=
  match s with
  | none => false
  | some v => !(v == "")

/-- JS truthiness for an optional number: `undefined`/`null` and `0` are falsy
(epoch-millisecond values are integers here). -/
def jsTruthyInt (n : Option Int) : Bool :=
  match n with
  | none => false
  | some v => !(v == 0)

/-- JS `a || b` on optional strings: the left operand when truthy, else the right. -/
def jsOrStr (a b : Option String) : Option String :=
  match a with
  | none => b
  | some v => if v == "" then b else some v

/-- JS `a || b` on optional numbers: the left operand when truthy, else the right. -/
def jsOrInt (a b : Option Int) : Option Int :=
  match a with
  | none => b
  | some v => if v == 0 then b else some v

/-- JS `a || b` where the right operand is a plain (always defined) string,
as in `credentials.tokenType || 'Bearer'`. -/
def jsOrStringDefault (a : Option String) (b : String) : String :=
  match a with
  | none => b
  | some v => if v == "" then b else v

/-- JS `Number.parseInt(s, 10)`: skip leading whitespace, read an optional
sign and then a maximal run of decimal digits; `none` models `NaN`. -/
def parseIntJs (s : String) : Option Int :=
  let t := s.toList.dropWhile (fun c => c.isWhitespace)
  let signAndRest : Bool × List Char :=
    match t with
    | '-' :: r => (true, r)
    | '+' :: r => (false, r)
    | r => (false, r)
  let digits := signAndRest.2.takeWhile (fun c => c.isDigit)
  if digits.isEmpty then none
  else
    let v : Nat := digits.foldl (fun acc c => acc * 10 + (c.toNat - 48)) 0
    some (if signAndRest.1 then -(v : Int) else (v : Int))

/-! ## Data model (`src/types.ts` shape, as used by `auth.ts` and `index.ts`) -/

/-- The `QwenCredentials` record: `accessToken: string`, all other fields
optional (`refreshToken?`, `tokenType?`, `expiryDate?` epoch millis,
`resourceUrl?`, `scope?`). -/
structure QwenCredentials where
  accessToken : String
  refreshToken : Option String := none
  tokenType : Option String := none
  expiryDate : Option Int := none
  resourceUrl : Option String := none
  scope : Option String := none
deriving Repr, DecidableEq

/-- The persisted credential file (`StoredCredentialsFile` in `auth.ts`):
every field optional; an absent `Option` field models both a missing JSON key
and `undefined` (which `JSON.stringify` omits on write). -/
structure StoredCredentialsFile where
  access_token : Option String := none
  token_type : Option String := none
  refresh_token : Option String := none
  resource_url : Option String := none
  expiry_date : Option Int := none
  scope : Option String := none
deriving Repr, DecidableEq

/-! ## `src/plugin/auth.ts` -/

/-- `saveCredentials`: the record written to `~/.qwen/oauth_creds.json`
(`token_type: credentials.tokenType || 'Bearer'`, every other field copied).
The filesystem write itself is modelled by returning the stored record. -/
def saveCredentials (credentials : QwenCredentials) : StoredCredentialsFile :=
  { access_token := some credentials.accessToken
  , token_type := some (jsOrStringDefault credentials.tokenType "Bearer")
  , refresh_token := credentials.refreshToken
  , resource_url := credentials.resourceUrl
  , expiry_date := credentials.expiryDate
  , scope := credentials.scope }

/-- `loadCredentials`: `parsed = none` models a missing file or a JSON parse
failure (both return `null` in the source). With a parsed record, the source
returns `null` when `!parsed.access_token && !parsed.refresh_token`, and
otherwise builds a credential with `accessToken: parsed.access_token || ''`
and `tokenType: parsed.token_type || 'Bearer'`. -/
def loadCredentials (parsed : Option StoredCredentialsFile) : Option QwenCredentials :=
  match parsed with
  | none => none
  | some p =>
    if !jsPresent p.access_token && !jsPresent p.refresh_token then none
    else some
      { accessToken := p.access_token.getD ""
      , tokenType := some (jsOrStringDefault p.token_type "Bearer")
      , refreshToken := p.refresh_token
      , resourceUrl := p.resource_url
      , expiryDate := p.expiry_date
      , scope := p.scope }

/-! ## `src/index.ts`: runtime auth view and credential reconciliation -/

/-- The host runtime auth state handed to the plugin by `getAuth()`:
`{ type: string; access?: string; refresh?: string; expires?: number }`. -/
structure RuntimeAuthState where
  type : String
  access : Option String := none
  refresh : Option String := none
  expires : Option Int := none
deriving Repr, DecidableEq

/-- `runtimeAuthToCredentials`: `null` unless `auth.type === 'oauth'` and at
least one of `access`/`refresh` is truthy; otherwise a credential with
`accessToken: auth.access || ''` and `tokenType: 'Bearer'`. -/
def runtimeAuthToCredentials (auth : Option RuntimeAuthState) : Option QwenCredentials :=
  match auth with
  | none => none
  | some a =>
    if !(a.type == "oauth") then none
    else if !jsPresent a.access && !jsPresent a.refresh then none
    else some
      { accessToken := a.access.getD ""
      , refreshToken := a.refresh
      , expiryDate := a.expires
      , tokenType := some "Bearer" }

/-- `getExpiryScore`: `credentials?.expiryDate ?? 0`. -/
def getExpiryScore (credentials : Option QwenCredentials) : Int :=
  match credentials with
  | none => 0
  | some c => c.expiryDate.getD 0

/-- The stable JS `sort((a, b) => getExpiryScore(b) - getExpiryScore(a))` on
the at-most-two-element array `[runtime, file].filter(Boolean)`: a stable sort
of two elements swaps them exactly when the comparator is positive. -/
def sortTwoByScoreDesc : List QwenCredentials → List QwenCredentials
  | [a, b] => if getExpiryScore (some b) - getExpiryScore (some a) > 0 then [b, a] else [a, b]
  | l => l

/-- The result record of `mergeCredentialSources`:
`{ accessToken: string | null; expiryDate?: number; refreshCandidates: string[] }`. -/
structure MergedCredentials where
  accessToken : Option String
  expiryDate : Option Int
  refreshCandidates : List String
deriving Repr, DecidableEq

/-- The refresh-candidate filter of `mergeCredentialSources`:
`.filter((token, index, arr) => Boolean(token) && arr.indexOf(token) === index)`
keeps a present token exactly when its index is the first position at which
that token occurs in the array (`undefined` entries never match `indexOf`). -/
def refreshCandidatesOf (arr : List (Option String)) : List String :=
  arr.enum.filterMap fun p =>
    match p.2 with
    | none => none
    | some s =>
      if s ≠ "" ∧ arr.findIdx? (fun y => y == some s) = some p.1 then some s else none

/-- `mergeCredentialSources`: sort the present sources by expiry score
descending (stable, so runtime precedes file on ties), then
`accessToken = freshest?.accessToken || runtime?.accessToken || file?.accessToken || null`,
`expiryDate = freshest?.expiryDate || runtime?.expiryDate || file?.expiryDate`,
and the de-duplicated refresh-candidate list
`[freshest?.refreshToken, file?.refreshToken, runtime?.refreshToken]`. -/
def mergeCredentialSources (runtimeCredentials fileCredentials : Option QwenCredentials) :
    MergedCredentials :=
  let credentialsByFreshness :=
    sortTwoByScoreDesc (([runtimeCredentials, fileCredentials]).filterMap id)
  let freshest := credentialsByFreshness.head?
  { accessToken :=
      jsOrStr (freshest.map (·.accessToken))
        (jsOrStr (runtimeCredentials.map (·.accessToken))
          (jsOrStr (fileCredentials.map (·.accessToken)) none))
  , expiryDate :=
      jsOrInt (freshest.bind (·.expiryDate))
        (jsOrInt (runtimeCredentials.bind (·.expiryDate))
          (fileCredentials.bind (·.expiryDate)))
  , refreshCandidates :=
      refreshCandidatesOf
        [ freshest.bind (·.refreshToken)
        , fileCredentials.bind (·.refreshToken)
        , runtimeCredentials.bind (·.refreshToken) ] }

/-! ## `src/index.ts`: token cache and `getValidAccessToken` -/

/-- `TOKEN_CACHE_DURATION = 5 * 60 * 1000`. -/
def TOKEN_CACHE_DURATION : Int := 5 * 60 * 1000

/-- `REFRESH_BEFORE_EXPIRY_MS = 5 * 60 * 1000`. -/
def REFRESH_BEFORE_EXPIRY_MS : Int := 5 * 60 * 1000

/-- The module-level mutable cache:
`cachedToken : string | null`, `cachedTokenExpiry`, `lastRefreshTime`. -/
structure TokenCacheState where
  cachedToken : Option String
  cachedTokenExpiry : Int
  lastRefreshTime : Int
deriving Repr, DecidableEq

/-- `resetTokenCache()`: `cachedToken = null; cachedTokenExpiry = 0; lastRefreshTime = 0`. -/
def resetTokenCache : TokenCacheState :=
  { cachedToken := none, cachedTokenExpiry := 0, lastRefreshTime := 0 }

/-- The fast-path guard of `getValidAccessToken`:
`cachedToken && now < cachedTokenExpiry && now - lastRefreshTime < TOKEN_CACHE_DURATION`. -/
def cacheFastPath (st : TokenCacheState) (now : Int) : Bool :=
  jsPresent st.cachedToken && decide (now < st.cachedTokenExpiry) &&
    decide (now - st.lastRefreshTime < TOKEN_CACHE_DURATION)

/-- Everything observable about one `getValidAccessToken` call: its return
value, the final cache, and the side effects it performed — credentials
persisted with `saveCredentials`, refresh tokens tried with
`refreshAccessToken` (in order), and the number of `loadCredentials` file
reads. -/
structure ResolveOutcome where
  result : Option String
  cache : TokenCacheState
  savedCreds : List QwenCredentials
  refreshCalls : List String
  fileReads : Nat
deriving Repr, DecidableEq

/-- The `for (const refreshToken of merged.refreshCandidates)` loop body:
try each candidate with `refreshAccessToken` (the oracle `refresher`, `none`
modelling a thrown error) until one succeeds; returns the candidates actually
tried, in order, and the first successful credential if any. -/
def tryRefreshCandidates (refresher : String → Option QwenCredentials) :
    List String → List String × Option QwenCredentials
  | [] => ([], none)
  | c :: rest =>
    match refresher c with
    | some refreshed => ([c], some refreshed)
    | none =>
      let tail := tryRefreshCandidates refresher rest
      (c :: tail.1, tail.2)

/-- The tail of `getValidAccessToken` after the refresh loop, with the
pre-refresh `accessToken`/`tokenExpiry` (both unchanged when no candidate
succeeded): hard-expiry reset, then the caching of a resolved token, then
`return accessToken ?? null`. `calls` carries the refresh attempts already
made, for the effect trace. -/
def resolveFallThrough (merged : MergedCredentials) (now : Int) (st : TokenCacheState)
    (calls : List String) : ResolveOutcome :=
  let accessToken := merged.accessToken
  let tokenExpiry := merged.expiryDate
  if jsPresent accessToken && jsTruthyInt tokenExpiry && decide (now > tokenExpiry.getD 0) then
    { result := none, cache := resetTokenCache, savedCreds := [], refreshCalls := calls
    , fileReads := 1 }
  else if jsPresent accessToken then
    { result := accessToken
    , cache :=
      { cachedToken := accessToken
      , cachedTokenExpiry := (jsOrInt tokenExpiry (some (now + 3600000))).getD 0
      , lastRefreshTime := now }
    , savedCreds := [], refreshCalls := calls, fileReads := 1 }
  else
    { result := accessToken, cache := st, savedCreds := [], refreshCalls := calls
    , fileReads := 1 }

/-- The refresh decision of `getValidAccessToken`:
`merged.refreshCandidates.length > 0 && (!accessToken || !tokenExpiry ||
now > tokenExpiry - REFRESH_BEFORE_EXPIRY_MS)`, where `accessToken` and
`tokenExpiry` are still the merged (pre-refresh) values; in the last
disjunct the `getD 0` is only reachable when `tokenExpiry` is truthy,
mirroring the `||` short-circuit. -/
def shouldRefreshB (merged : MergedCredentials) (now : Int) : Bool :=
  !merged.refreshCandidates.isEmpty &&
    (!jsPresent merged.accessToken || !jsTruthyInt merged.expiryDate ||
      decide (now > merged.expiryDate.getD 0 - REFRESH_BEFORE_EXPIRY_MS))

/-- `getValidAccessToken`. Inputs stand for the call's environment: `auth` is
what `getAuth()` resolves to, `fileCredentials` is what `loadCredentials()`
parses from disk (the read itself is counted in `fileReads`, and happens
before the cache fast-path check, as in the source), `refresher` is
`refreshAccessToken` (`none` = the call threw), and `now` is `Date.now()`
(time is taken not to advance during the call). In the refresh disjunct
`now > tokenExpiry - REFRESH_BEFORE_EXPIRY_MS` the `getD 0` is only reached
when `tokenExpiry` is truthy, mirroring `||` short-circuiting. -/
def getValidAccessToken (auth : Option RuntimeAuthState)
    (fileCredentials : Option QwenCredentials)
    (refresher : String → Option QwenCredentials) (now : Int)
    (st : TokenCacheState) : ResolveOutcome :=
  let runtimeCredentials := runtimeAuthToCredentials auth
  let merged := mergeCredentialSources runtimeCredentials fileCredentials
  if cacheFastPath st now then
    { result := st.cachedToken, cache := st, savedCreds := [], refreshCalls := []
    , fileReads := 1 }
  else
    if shouldRefreshB merged now then
      match tryRefreshCandidates refresher merged.refreshCandidates with
      | (calls, some refreshed) =>
        { result := some refreshed.accessToken
        , cache :=
          { cachedToken := some refreshed.accessToken
          , cachedTokenExpiry := (jsOrInt refreshed.expiryDate (some (now + 3600000))).getD 0
          , lastRefreshTime := now }
        , savedCreds := [refreshed], refreshCalls := calls, fileReads := 1 }
      | (calls, none) => resolveFallThrough merged now st calls
    else resolveFallThrough merged now st []

/-! ## `src/index.ts`: the loader `fetch` wrapper (401/403 and 429 handling) -/

/-- An HTTP response as the wrapper observes it: its status and its
`Retry-After` header (`none` = header absent, `headers.get` returned `null`). -/
structure HttpResponse where
  status : Nat
  retryAfter : Option String := none
deriving Repr, DecidableEq

/-- `RequestQueueState` (§3 of the design): `{ lastDispatchMillis }`. -/
structure RequestQueueState where
  lastDispatchMillis : Int
deriving Repr, DecidableEq

/-- The milliseconds actually slept by the 429 branch:
`retryAfter = response.headers.get('Retry-After') || '60'` followed by
`setTimeout(..., Number.parseInt(retryAfter, 10) * 1000)`. A `NaN` timeout
and a negative timeout are both clamped to `0` by `setTimeout`. -/
def retryAfterWait (header : Option String) : Int :=
  let raw :=
    match header with
    | none => "60"
    | some s => if s == "" then "60" else s
  match parseIntJs raw with
  | none => 0
  | some n => max 0 (n * 1000)

/-- Everything observable about the wrapper's handling of one dispatched
response: the response finally returned, the cache and queue state, the
resolution side effects (when the 401/403 branch re-resolved), the bearer
tokens of re-issued requests (`retries`, at most one entry), and the
milliseconds slept. -/
structure FetchOutcome where
  response : HttpResponse
  cache : TokenCacheState
  queue : RequestQueueState
  savedCreds : List QwenCredentials
  refreshCalls : List String
  retries : List String
  sleeps : List Int
deriving Repr, DecidableEq

/-- The response post-processing inside `requestQueue.enqueue`: given the
first response, on 401/403 call `resetTokenCache()` then re-resolve with
`getValidAccessToken`; if the re-resolved token is truthy and different,
re-issue once with the new `Authorization` header (`fetchAgain t` is the
response to a direct `fetch` carrying bearer token `t`); otherwise fall
through (the subsequent `status === 429` test is false for a 401/403) and
return the original response. On 429, sleep `retryAfterWait` and re-issue
once with identical headers, directly (not through `enqueue`). Any other
status is returned unchanged. -/
def handleResponse (auth : Option RuntimeAuthState)
    (fileCredentials : Option QwenCredentials)
    (refresher : String → Option QwenCredentials) (now : Int)
    (qs : RequestQueueState) (st : TokenCacheState) (accessToken : String)
    (response : HttpResponse) (fetchAgain : String → HttpResponse) : FetchOutcome :=
  if response.status == 401 || response.status == 403 then
    let resolved := getValidAccessToken auth fileCredentials refresher now resetTokenCache
    let retried : Option String :=
      match resolved.result with
      | some t => if jsPresent (some t) && !(t == accessToken) then some t else none
      | none => none
    match retried with
    | some t =>
      { response := fetchAgain t, cache := resolved.cache, queue := qs
      , savedCreds := resolved.savedCreds, refreshCalls := resolved.refreshCalls
      , retries := [t], sleeps := [] }
    | none =>
      { response := response, cache := resolved.cache, queue := qs
      , savedCreds := resolved.savedCreds, refreshCalls := resolved.refreshCalls
      , retries := [], sleeps := [] }
  else if response.status == 429 then
    { response := fetchAgain accessToken, cache := st, queue := qs
    , savedCreds := [], refreshCalls := [], retries := [accessToken]
    , sleeps := [retryAfterWait response.retryAfter] }
  else
    { response := response, cache := st, queue := qs
    , savedCreds := [], refreshCalls := [], retries := [], sleeps := [] }

/-! ## Request governor (spec-modelled) -/

/-- Modelled from the spec: the file `src/plugin/request-queue.ts`
(`RequestQueue`) is not included in the repository snapshot; only a README
excerpt shows it. Per §4.4, the governor's configuration is
`{ minIntervalMillis = 1000, jitterMinMillis = 500, jitterMaxMillis = 1500 }`. -/
structure QueueConfig where
  minIntervalMillis : Int
  jitterMinMillis : Int
  jitterMaxMillis : Int
deriving Repr, DecidableEq

/-- Modelled from the spec: the shipped governor configuration (§4.4). -/
def qwenQueueConfig : QueueConfig :=
  { minIntervalMillis := 1000, jitterMinMillis := 500, jitterMaxMillis := 1500 }

/-- Modelled from the spec: one `enqueue` dispatch. With the task reaching the
head of the queue at `now`, the governor suspends for
`wait = max(0, minIntervalMillis - (now - lastDispatchMillis)) + jitter` and
dispatches at `now + wait`, which becomes the new `lastDispatchMillis`. -/
def enqueueDispatch (cfg : QueueConfig) (lastDispatchMillis now jitter : Int) : Int :=
  now + max 0 (cfg.minIntervalMillis - (now - lastDispatchMillis)) + jitter

/-- Modelled from the spec: N zero-duration tasks submitted back-to-back,
executed strictly one at a time in FIFO submission order; the i-th jitter
sample drives the i-th task. Returns the list of dispatch timestamps. Each
task's `enqueue` processing begins at the previous dispatch time (tasks are
queued together and each runs instantaneously). -/
def runQueue (cfg : QueueConfig) (now lastDispatchMillis : Int) :
    List Int → List Int
  | [] => []
  | jitter :: rest =>
    let t := enqueueDispatch cfg lastDispatchMillis now jitter
    t :: runQueue cfg t t rest

/-- All gaps between consecutive elements lie in `[lo, hi]`. -/
def consecutiveGapsWithin (lo hi : Int) : List Int → Prop
  | t1 :: t2 :: rest => (lo ≤ t2 - t1 ∧ t2 - t1 ≤ hi) ∧ consecutiveGapsWithin lo hi (t2 :: rest)
  | _ => True

instance : DecidablePred (consecutiveGapsWithin lo hi) := fun l => by
  induction l with
  | nil => exact isTrue trivial
  | cons t rest ih =>
    cases rest with
    | nil => exact isTrue trivial
    | cons t2 r2 =>
      exact @instDecidableAnd _ _ _ ih

/-! ## `src/index.ts`: device-flow polling loop -/

/-- One `pollDeviceToken` round, as the loop body classifies it:
a truthy token response (already converted to credentials), a falsy response
(loop continues silently), a thrown `SlowDownError`, a thrown error whose
message includes `authorization_pending`, or any other thrown error. -/
inductive PollOutcome where
  | success (credentials : QwenCredentials)
  | empty
  | slowDownErr
  | pendingErr
  | otherErr
deriving Repr, DecidableEq

/-- The polling loop's result: a successful exchange (with the elapsed
milliseconds at which it happened), failure, or the poll oracle running out
while the loop would continue. -/
inductive LoopResult where
  | success (credentials : QwenCredentials) (elapsedMs : Int)
  | failed (elapsedMs : Int)
  | exhausted (elapsedMs : Int) (interval : Int)
deriving Repr, DecidableEq

/-- The `callback` polling loop of `authorize`
(`POLLING_MARGIN_MS = 3000`, initial `interval = 5000`,
`timeoutMs = deviceAuth.expires_in * 1000`): while elapsed time is below the
timeout, sleep `interval + margin`, poll once; a truthy response returns
success; `SlowDownError` sets `interval = min(interval + 5000, 15000)`;
an `authorization_pending` error keeps the interval; any other error fails.
`elapsed` is `Date.now() - startTime`. -/
def pollLoop (timeoutMs marginMs : Int) :
    List PollOutcome → Int → Int → LoopResult
  | outcomes, elapsed, interval =>
    if timeoutMs ≤ elapsed then .failed elapsed
    else
      match outcomes with
      | [] => .exhausted elapsed interval
      | o :: rest =>
        let elapsed2 := elapsed + interval + marginMs
        match o with
        | .success c => .success c elapsed2
        | .empty => pollLoop timeoutMs marginMs rest elapsed2 interval
        | .slowDownErr => pollLoop timeoutMs marginMs rest elapsed2 (min (interval + 5000) 15000)
        | .pendingErr => pollLoop timeoutMs marginMs rest elapsed2 interval
        | .otherErr => .failed elapsed2

/-! ## Spec-side definitions (worded from the spec, for refinement comparison)

These definitions follow the words of §4.2 / claim C1 and are compared with
the source-derived `mergeCredentialSources` above. -/

/-- A present string: defined and non-empty. -/
def presentStr (s : Option String) : Option String :=
  match s with
  | none => none
  | some v => if v == "" then none else some v

/-- The first present token in a fallback chain. -/
def firstPresentStr (l : List (Option String)) : Option String :=
  l.findSome? presentStr

/-- Spec ranking of a source by `expiryDate` (higher = fresher); an absent
expiry ranks lowest, i.e. at the bottom rank `0` of the epoch-millis scale. -/
def expiryRank (c : QwenCredentials) : Int :=
  c.expiryDate.getD 0

/-- Spec §4.2 steps 1–2: drop absent sources and pick the one with the larger
`expiryDate`; ties (and absent expiries) resolve to runtime then file. -/
def freshestBySpec (runtimeCredentials fileCredentials : Option QwenCredentials) :
    Option QwenCredentials :=
  match runtimeCredentials, fileCredentials with
  | none, none => none
  | some a, none => some a
  | none, some b => some b
  | some a, some b => if expiryRank b > expiryRank a then some b else some a

/-- De-duplication where the first occurrence wins and order is preserved. -/
def dedupFirst : List String → List String
  | [] => []
  | x :: xs => x :: (dedupFirst xs).filter (fun y => !(y == x))

/-- Spec §4.2 step 3: the freshest source's token, falling back to runtime's
then file's token when the freshest source has none. -/
def claimAccessToken (runtimeCredentials fileCredentials : Option QwenCredentials) :
    Option String :=
  firstPresentStr
    [ (freshestBySpec runtimeCredentials fileCredentials).map (·.accessToken)
    , runtimeCredentials.map (·.accessToken)
    , fileCredentials.map (·.accessToken) ]

/-- Spec §4.2 step 5: the ordered list
`[freshest.refreshToken, file.refreshToken, runtime.refreshToken]`, filtered
for presence and de-duplicated with the first occurrence winning. -/
def claimRefreshCandidates (runtimeCredentials fileCredentials : Option QwenCredentials) :
    List String :=
  dedupFirst
    (([ (freshestBySpec runtimeCredentials fileCredentials).bind (·.refreshToken)
      , fileCredentials.bind (·.refreshToken)
      , runtimeCredentials.bind (·.refreshToken) ]).filterMap presentStr)

/-! ## Lemmas -/

theorem head_sortTwo_eq_freshestBySpec (r f : Option QwenCredentials) :
    (sortTwoByScoreDesc (([r, f]).filterMap id)).head? = freshestBySpec r f := by
  cases r with
  | none => cases f <;> rfl
  | some a =>
    cases f with
    | none => rfl
    | some b =>
      show (sortTwoByScoreDesc [a, b]).head? = freshestBySpec (some a) (some b)
      by_cases h : expiryRank b > expiryRank a
      · have hs : getExpiryScore (some b) - getExpiryScore (some a) > 0 := by
          simp only [getExpiryScore, expiryRank] at h ⊢; omega
        simp [sortTwoByScoreDesc, freshestBySpec, h, hs]
      · have hs : ¬(getExpiryScore (some b) - getExpiryScore (some a) > 0) := by
          simp only [getExpiryScore, expiryRank] at h ⊢; omega
        simp [sortTwoByScoreDesc, freshestBySpec, h, hs]

theorem jsOrStr_eq_presentStr (a r : Option String) :
    jsOrStr a r = (match presentStr a with | some v => some v | none => r) := by
  rcases a with _ | s
  · rfl
  · by_cases h : s = "" <;> simp [jsOrStr, presentStr, h]

theorem jsOrStr_chain_eq_firstPresentStr (a b c : Option String) :
    jsOrStr a (jsOrStr b (jsOrStr c none)) = firstPresentStr [a, b, c] := by
  rw [jsOrStr_eq_presentStr, jsOrStr_eq_presentStr, jsOrStr_eq_presentStr]
  rcases hpa : presentStr a with _ | va <;> rcases hpb : presentStr b with _ | vb <;>
    rcases hpc : presentStr c with _ | vc <;>
    simp [firstPresentStr, List.findSome?, hpa, hpb, hpc]

set_option maxHeartbeats 1600000 in
theorem refreshCandidatesOf_eq_dedupFirst (a b c : Option String) :
    refreshCandidatesOf [a, b, c] = dedupFirst (([a, b, c]).filterMap presentStr) := by
  rcases a with _ | sa <;> rcases b with _ | sb <;> rcases c with _ | sc <;>
    simp [refreshCandidatesOf, dedupFirst, presentStr, List.enum, List.enumFrom,
      List.findIdx?] <;>
    simp only [List.filterMap_cons, List.filterMap_nil] <;>
    split_ifs <;>
    simp_all [dedupFirst, presentStr, List.filter_cons, List.filter_nil, beq_iff_eq] <;>
    split_ifs <;> simp_all [List.filter_cons, List.filter_nil, beq_iff_eq] <;>
    split_ifs <;> simp_all

/-! ## Claim C1 -/

/-- C1: for every pair of inputs (runtime credential view, persisted
credential), each possibly absent, `mergeCredentialSources` returns a record
whose `accessToken` comes from the source with the larger `expiryDate`
(absent expiry ranking lowest, ties and absent expiry resolving to runtime
then file), falling back to runtime's then file's token when the freshest
source has none, and whose `refreshCandidates` list is exactly
[freshest.refreshToken, file.refreshToken, runtime.refreshToken] filtered for
presence and de-duplicated with the first occurrence winning and order
preserved; in particular, when runtime, file and freshest all carry refresh
token "A" the list is exactly ["A"]. Determinism is inherent: the function is
a pure Lean function of its two arguments. -/
theorem mergeCredentialSources_matches_claim :
    (∀ r f : Option QwenCredentials,
      (mergeCredentialSources r f).accessToken = claimAccessToken r f ∧
      (mergeCredentialSources r f).refreshCandidates = claimRefreshCandidates r f) ∧
    (mergeCredentialSources
        (some { accessToken := "rt", refreshToken := some "A", expiryDate := some 200 })
        (some { accessToken := "ft", refreshToken := some "A", expiryDate := some 100 })
      ).refreshCandidates = ["A"] := by
  constructor
  · intro r f
    unfold mergeCredentialSources claimAccessToken claimRefreshCandidates
    dsimp only
    rw [head_sortTwo_eq_freshestBySpec]
    exact ⟨jsOrStr_chain_eq_firstPresentStr _ _ _, refreshCandidatesOf_eq_dedupFirst _ _ _⟩
  · decide

/-! ## Claim C2 -/

/-- The refresh condition as claim C2 words it: at least one refresh
candidate, and no access token known, or no expiry known, or
`now > expiry - REFRESH_BEFORE_EXPIRY_MS`. (The `getD 0` in the last
disjunct is only decisive when an expiry is known; when it is absent the
second disjunct already holds.) -/
def refreshNeeded (merged : MergedCredentials) (now : Int) : Prop :=
  merged.refreshCandidates ≠ [] ∧
    (merged.accessToken = none ∨ merged.expiryDate = none ∨
      now > merged.expiryDate.getD 0 - REFRESH_BEFORE_EXPIRY_MS)

instance (merged : MergedCredentials) (now : Int) :
    Decidable (refreshNeeded merged now) := by
  unfold refreshNeeded; infer_instance

/-- Position and value of the first refresh candidate the oracle accepts. -/
def firstRefreshSuccess (refresher : String → Option QwenCredentials) :
    List String → Option (Nat × QwenCredentials)
  | [] => none
  | c :: rest =>
    match refresher c with
    | some cred => some (0, cred)
    | none => (firstRefreshSuccess refresher rest).map (fun p => (p.1 + 1, p.2))

theorem presentStr_ne_empty (x : Option String) (v : String) :
    presentStr x = some v → v ≠ "" := by
  cases x with
  | none => simp [presentStr]
  | some s =>
    by_cases h : s = "" <;> simp [presentStr, h]
    rintro rfl; exact h

theorem firstPresentStr_ne_empty (l : List (Option String)) (s : String) :
    firstPresentStr l = some s → s ≠ "" := by
  induction l with
  | nil => simp [firstPresentStr, List.findSome?]
  | cons a t ih =>
    intro h
    rw [firstPresentStr, List.findSome?_cons] at h
    cases hp : presentStr a with
    | none => rw [hp] at h; exact ih h
    | some v => rw [hp] at h; cases h; exact presentStr_ne_empty a _ hp

theorem mergeAccessToken_ne_empty (r f : Option QwenCredentials) (s : String) :
    (mergeCredentialSources r f).accessToken = some s → s ≠ "" := by
  unfold mergeCredentialSources
  dsimp only
  rw [jsOrStr_chain_eq_firstPresentStr]
  exact firstPresentStr_ne_empty _ s

theorem shouldRefreshB_iff (merged : MergedCredentials) (now : Int)
    (hA : ∀ s, merged.accessToken = some s → s ≠ "") (h0 : 0 ≤ now) :
    shouldRefreshB merged now = true ↔ refreshNeeded merged now := by
  have hcand : (!merged.refreshCandidates.isEmpty) = true ↔
      merged.refreshCandidates ≠ [] := by
    cases merged.refreshCandidates <;> simp
  unfold shouldRefreshB refreshNeeded
  rcases hacc : merged.accessToken with _ | s
  · rcases hexp : merged.expiryDate with _ | e <;>
      simp [jsPresent, jsTruthyInt, hcand]
  · have hs : ¬(s = "") := hA s hacc
    rcases hexp : merged.expiryDate with _ | e
    · simp [jsPresent, jsTruthyInt, hcand, hs]
    · rw [Bool.and_eq_true, hcand, Bool.or_eq_true, Bool.or_eq_true]
      constructor
      · rintro ⟨h1, h2⟩
        refine ⟨h1, Or.inr (Or.inr ?_)⟩
        rcases h2 with (h2 | h2) | h2
        · rw [Bool.not_eq_true'] at h2
          simp [jsPresent, hs] at h2
        · rw [Bool.not_eq_true'] at h2
          have he : e = 0 := by simpa [jsTruthyInt] using h2
          simp only [Option.getD_some, REFRESH_BEFORE_EXPIRY_MS]
          omega
        · simpa [REFRESH_BEFORE_EXPIRY_MS] using of_decide_eq_true h2
      · rintro ⟨h1, h2⟩
        refine ⟨h1, ?_⟩
        rcases h2 with h2 | h2 | h2
        · exact absurd h2 (by simp)
        · exact absurd h2 (by simp)
        · right
          apply decide_eq_true
          simpa [REFRESH_BEFORE_EXPIRY_MS] using h2

theorem tryRefresh_of_firstSuccess (refresher : String → Option QwenCredentials)
    (cands : List String) (k : Nat) (cred : QwenCredentials)
    (h : firstRefreshSuccess refresher cands = some (k, cred)) :
    tryRefreshCandidates refresher cands = (cands.take (k + 1), some cred) := by
  induction cands generalizing k with
  | nil => simp [firstRefreshSuccess] at h
  | cons c rest ih =>
    rw [firstRefreshSuccess] at h
    cases hr : refresher c with
    | some cr =>
      rw [hr] at h
      cases h
      simp [tryRefreshCandidates, hr, List.take]
    | none =>
      rw [hr] at h
      simp only [Option.map_eq_some'] at h
      obtain ⟨⟨k0, cr0⟩, hfs, hk⟩ := h
      cases hk
      simp [tryRefreshCandidates, hr, ih _ hfs, List.take]

theorem tryRefresh_of_allFail (refresher : String → Option QwenCredentials)
    (cands : List String) (h : ∀ c ∈ cands, refresher c = none) :
    tryRefreshCandidates refresher cands = (cands, none) := by
  induction cands with
  | nil => rfl
  | cons c rest ih =>
    have hc : refresher c = none := h c (by simp)
    simp [tryRefreshCandidates, hc, ih (fun d hd => h d (by simp [hd]))]

theorem tryRefresh_success_calls_ne_nil (refresher : String → Option QwenCredentials)
    (l calls : List String) (cred : QwenCredentials)
    (h : tryRefreshCandidates refresher l = (calls, some cred)) : calls ≠ [] := by
  cases l with
  | nil =>
    rw [tryRefreshCandidates] at h
    injection h with h1 h2
    exact Option.noConfusion h2
  | cons c rest =>
    rw [tryRefreshCandidates] at h
    rcases hr : refresher c with _ | cr <;> rw [hr] at h
    · rcases htail : tryRefreshCandidates refresher rest with ⟨tc, tr⟩
      rw [htail] at h
      dsimp only at h
      injection h with h1 h2
      rw [← h1]; simp
    · injection h with h1 h2
      rw [← h1]; simp

theorem tryRefresh_none_calls (refresher : String → Option QwenCredentials) :
    ∀ (l calls : List String),
      tryRefreshCandidates refresher l = (calls, none) → calls = l := by
  intro l
  induction l with
  | nil =>
    intro calls h
    rw [tryRefreshCandidates] at h
    injection h with h1 h2
    exact h1.symm
  | cons c rest ih =>
    intro calls h
    rw [tryRefreshCandidates] at h
    rcases hr : refresher c with _ | cr <;> rw [hr] at h
    · rcases htail : tryRefreshCandidates refresher rest with ⟨tc, tr⟩
      rw [htail] at h
      dsimp only at h
      injection h with h1 h2
      have htc : tryRefreshCandidates refresher rest = (tc, none) := by rw [htail, h2]
      rw [← h1, ih tc htc]
    · injection h with h1 h2
      exact Option.noConfusion h2

theorem resolveFallThrough_refreshCalls (merged : MergedCredentials) (now : Int)
    (st : TokenCacheState) (calls : List String) :
    (resolveFallThrough merged now st calls).refreshCalls = calls := by
  unfold resolveFallThrough
  dsimp only
  split
  · rfl
  · split <;> rfl

theorem resolveFallThrough_calls_irrelevant (merged : MergedCredentials) (now : Int)
    (st : TokenCacheState) (calls : List String) :
    (resolveFallThrough merged now st calls).result = (resolveFallThrough merged now st []).result ∧
    (resolveFallThrough merged now st calls).cache = (resolveFallThrough merged now st []).cache ∧
    (resolveFallThrough merged now st calls).savedCreds = [] := by
  unfold resolveFallThrough
  dsimp only
  split
  · exact ⟨rfl, rfl, rfl⟩
  · split <;> exact ⟨rfl, rfl, rfl⟩

/-- C2: past the cache fast path, a refresh is attempted iff the merged
refresh-candidate list is non-empty and (no access token is known, or no
expiry is known, or `now > expiry - 5min`); when refreshing, candidates are
tried strictly in order, the first success is persisted
(`savedCreds = [cred]`), the cache is updated to the new token/expiry with
`lastRefresh = now`, and the new token is returned immediately without trying
later candidates (`refreshCalls` stops at the first success); if every
candidate fails, the function falls through with the pre-refresh token and
expiry. -/
theorem getValidAccessToken_refresh_behavior
    (auth : Option RuntimeAuthState) (fileCredentials : Option QwenCredentials)
    (refresher : String → Option QwenCredentials) (now : Int) (st : TokenCacheState)
    (hfast : cacheFastPath st now = false) (h0 : 0 ≤ now) :
    ((getValidAccessToken auth fileCredentials refresher now st).refreshCalls ≠ [] ↔
      refreshNeeded (mergeCredentialSources (runtimeAuthToCredentials auth) fileCredentials) now) ∧
    (∀ k cred,
      firstRefreshSuccess refresher
          (mergeCredentialSources (runtimeAuthToCredentials auth) fileCredentials).refreshCandidates =
        some (k, cred) →
      refreshNeeded (mergeCredentialSources (runtimeAuthToCredentials auth) fileCredentials) now →
      (getValidAccessToken auth fileCredentials refresher now st).result = some cred.accessToken ∧
      (getValidAccessToken auth fileCredentials refresher now st).cache =
        { cachedToken := some cred.accessToken
        , cachedTokenExpiry := (jsOrInt cred.expiryDate (some (now + 3600000))).getD 0
        , lastRefreshTime := now } ∧
      (getValidAccessToken auth fileCredentials refresher now st).savedCreds = [cred] ∧
      (getValidAccessToken auth fileCredentials refresher now st).refreshCalls =
        (mergeCredentialSources (runtimeAuthToCredentials auth) fileCredentials).refreshCandidates.take
          (k + 1)) ∧
    ((∀ c ∈ (mergeCredentialSources (runtimeAuthToCredentials auth) fileCredentials).refreshCandidates,
        refresher c = none) →
      (getValidAccessToken auth fileCredentials refresher now st).result =
        (resolveFallThrough (mergeCredentialSources (runtimeAuthToCredentials auth) fileCredentials)
            now st []).result ∧
      (getValidAccessToken auth fileCredentials refresher now st).cache =
        (resolveFallThrough (mergeCredentialSources (runtimeAuthToCredentials auth) fileCredentials)
            now st []).cache ∧
      (getValidAccessToken auth fileCredentials refresher now st).savedCreds = []) := by
  have hmerge := mergeAccessToken_ne_empty (runtimeAuthToCredentials auth) fileCredentials
  set merged := mergeCredentialSources (runtimeAuthToCredentials auth) fileCredentials with hm
  have hiff := shouldRefreshB_iff merged now hmerge h0
  unfold getValidAccessToken
  dsimp only
  rw [← hm, hfast]
  simp only [Bool.false_eq_true, if_false]
  by_cases hsr : shouldRefreshB merged now
  · rw [if_pos hsr]
    refine ⟨?_, ?_, ?_⟩
    · rcases htr : tryRefreshCandidates refresher merged.refreshCandidates with ⟨calls, res⟩
      cases res with
      | some cred =>
        have hne := tryRefresh_success_calls_ne_nil refresher _ calls cred htr
        simp [hne, hiff.mp hsr]
      | none =>
        simp only [resolveFallThrough_refreshCalls]
        rw [tryRefresh_none_calls refresher _ calls htr]
        simp [(hiff.mp hsr).1, hiff.mp hsr]
    · intro k cred hfs _
      rw [tryRefresh_of_firstSuccess refresher _ k cred hfs]
      exact ⟨rfl, rfl, rfl, rfl⟩
    · intro hfail
      rw [tryRefresh_of_allFail refresher _ hfail]
      exact resolveFallThrough_calls_irrelevant merged now st merged.refreshCandidates
  · rw [if_neg hsr]
    refine ⟨?_, ?_, ?_⟩
    · simp only [resolveFallThrough_refreshCalls]
      constructor
      · intro h; exact absurd rfl h
      · intro h; exact absurd (hiff.mpr h) hsr
    · intro k cred hfs hneed
      exact absurd (hiff.mpr hneed) hsr
    · intro _
      exact resolveFallThrough_calls_irrelevant merged now st []

/-- Concrete runtime auth state for the C2 witness: an oauth session whose
token expires at 1000 and which carries refresh token "r1". -/
def authC2 : RuntimeAuthState :=
  { type := "oauth", access := some "oldTok", refresh := some "r1", expires := some 1000 }

/-- Concrete refresh oracle for the C2 witness: "r1" succeeds. -/
def refresherC2 : String → Option QwenCredentials :=
  fun s => if s = "r1" then some { accessToken := "newTok", expiryDate := some 999999 } else none

/-- Concrete successful refresh result for the C2 witness. -/
def credC2 : QwenCredentials := { accessToken := "newTok", expiryDate := some 999999 }

/-- Witness for C2: at a concrete expired-token state the refresh loop runs,
the single candidate "r1" is tried and succeeds, and the new token is
returned. -/
theorem getValidAccessToken_refresh_behavior_witness :
    (getValidAccessToken (some authC2) none refresherC2 1000 resetTokenCache).result =
      some "newTok" ∧
    (getValidAccessToken (some authC2) none refresherC2 1000 resetTokenCache).refreshCalls =
      ["r1"] := by
  have h := getValidAccessToken_refresh_behavior (some authC2) none refresherC2 1000
    resetTokenCache (by decide) (by decide)
  have hb := h.2.1 0 credC2 (by decide) (by decide)
  refine ⟨hb.1, ?_⟩
  rw [hb.2.2.2]
  decide

/-! ## Claim C3 -/

theorem resolveFallThrough_reset (merged : MergedCredentials) (now : Int)
    (st : TokenCacheState) (calls : List String) (t : String) (e : Int)
    (ht : merged.accessToken = some t) (htne : t ≠ "")
    (he : merged.expiryDate = some e) (he0 : e ≠ 0) (hpast : e < now) :
    resolveFallThrough merged now st calls =
      { result := none, cache := resetTokenCache, savedCreds := []
      , refreshCalls := calls, fileReads := 1 } := by
  unfold resolveFallThrough
  dsimp only
  rw [ht, he]
  have hc : (jsPresent (some t) && jsTruthyInt (some e) &&
      decide (now > (Option.getD (some e) 0))) = true := by
    simp [jsPresent, jsTruthyInt, htne, he0]
    omega
  rw [if_pos hc]

/-- C3 counterexample: with runtime token "T" having no expiry and the file
credential carrying expiry 0 (an epoch value strictly before `now = 1000`)
and no refresh candidates anywhere, the resolved access token's expiry (0) is
in the past and no refresh succeeded, yet `getValidAccessToken` returns the
token "T" and leaves a populated cache instead of resetting it and returning
no token: the `0` expiry is JS-falsy, so the hard-expiry guard
`accessToken && tokenExpiry && now > tokenExpiry` does not fire. -/
theorem getValidAccessToken_expired_zero_counterexample :
    (mergeCredentialSources
        (runtimeAuthToCredentials (some { type := "oauth", access := some "T" }))
        (some { accessToken := "F", expiryDate := some 0 })).accessToken = some "T" ∧
    (mergeCredentialSources
        (runtimeAuthToCredentials (some { type := "oauth", access := some "T" }))
        (some { accessToken := "F", expiryDate := some 0 })).expiryDate = some 0 ∧
    (0 : Int) < 1000 ∧
    (mergeCredentialSources
        (runtimeAuthToCredentials (some { type := "oauth", access := some "T" }))
        (some { accessToken := "F", expiryDate := some 0 })).refreshCandidates = [] ∧
    (getValidAccessToken (some { type := "oauth", access := some "T" })
        (some { accessToken := "F", expiryDate := some 0 })
        (fun _ => none) 1000 resetTokenCache).result = some "T" ∧
    (getValidAccessToken (some { type := "oauth", access := some "T" })
        (some { accessToken := "F", expiryDate := some 0 })
        (fun _ => none) 1000 resetTokenCache).cache ≠ resetTokenCache := by
  decide

/-- C3 (amended): for every state past the cache fast path in which the
resolved access token's expiry is a nonzero epoch value strictly before
`now` and no refresh attempt succeeded, `getValidAccessToken` resets the
token cache entirely and returns the explicit absence value `none` (the
embedding is total — nothing is thrown). An expiry recorded as exactly `0`
is treated by the code as unknown rather than past (see the counterexample),
which is the only change from the claim as stated. -/
theorem getValidAccessToken_hard_expiry_resets
    (auth : Option RuntimeAuthState) (fileCredentials : Option QwenCredentials)
    (refresher : String → Option QwenCredentials) (now : Int) (st : TokenCacheState)
    (t : String) (e : Int)
    (hfast : cacheFastPath st now = false)
    (ht : (mergeCredentialSources (runtimeAuthToCredentials auth) fileCredentials).accessToken =
      some t)
    (he : (mergeCredentialSources (runtimeAuthToCredentials auth) fileCredentials).expiryDate =
      some e)
    (he0 : e ≠ 0) (hpast : e < now)
    (hfail : ∀ c ∈ (mergeCredentialSources (runtimeAuthToCredentials auth)
        fileCredentials).refreshCandidates, refresher c = none) :
    (getValidAccessToken auth fileCredentials refresher now st).result = none ∧
    (getValidAccessToken auth fileCredentials refresher now st).cache = resetTokenCache := by
  have htne : t ≠ "" :=
    mergeAccessToken_ne_empty (runtimeAuthToCredentials auth) fileCredentials t ht
  set merged := mergeCredentialSources (runtimeAuthToCredentials auth) fileCredentials with hm
  unfold getValidAccessToken
  dsimp only
  rw [← hm, hfast]
  simp only [Bool.false_eq_true, if_false]
  by_cases hsr : shouldRefreshB merged now
  · rw [if_pos hsr]
    simp only [tryRefresh_of_allFail refresher _ hfail]
    rw [resolveFallThrough_reset merged now st merged.refreshCandidates t e ht htne he he0 hpast]
    exact ⟨rfl, rfl⟩
  · rw [if_neg hsr]
    rw [resolveFallThrough_reset merged now st [] t e ht htne he he0 hpast]
    exact ⟨rfl, rfl⟩

/-- Witness for the amended C3: a concrete oauth session whose token expired
at 5 (before `now = 1000`) with no refresh candidates resolves to no token
and a fully reset cache. -/
theorem getValidAccessToken_hard_expiry_resets_witness :
    (getValidAccessToken (some { type := "oauth", access := some "T", expires := some 5 })
        none (fun _ => none) 1000 resetTokenCache).result = none ∧
    (getValidAccessToken (some { type := "oauth", access := some "T", expires := some 5 })
        none (fun _ => none) 1000 resetTokenCache).cache = resetTokenCache :=
  getValidAccessToken_hard_expiry_resets
    (some { type := "oauth", access := some "T", expires := some 5 }) none
    (fun _ => none) 1000 resetTokenCache "T" 5
    (by decide) (by decide) (by decide) (by decide) (by decide) (by decide)

/-! ## Claim C4 -/

/-- Concrete cache state for C4: a cached token, valid until 10000, last
refreshed at 500 — the fast path holds at `now = 1000`. -/
def stC4 : TokenCacheState :=
  { cachedToken := some "tok", cachedTokenExpiry := 10000, lastRefreshTime := 500 }

/-- C4 counterexample: on the cache fast path the call still reads the
persisted credential file — `loadCredentials()` runs before the cache check
in the source — so "performs no disk operation / does not read the persisted
credential file" is false: at this concrete fast-path state the file-read
count is 1, not 0. -/
theorem fastPath_reads_file_counterexample :
    cacheFastPath stC4 1000 = true ∧
    (getValidAccessToken none none (fun _ => none) 1000 stC4).result = some "tok" ∧
    (getValidAccessToken none none (fun _ => none) 1000 stC4).fileReads ≠ 0 := by
  decide

/-- C4 (amended): whenever the cache fast path holds (cache has a token,
`now < cacheExpiry`, `now - lastRefresh < 5min`), `getValidAccessToken`
returns the cached token, issues no refresh call, persists nothing, and
leaves the cache unchanged; it does, however, query the runtime auth state
and read the persisted credential file once before the cache check — that
read is the only change from the claim as stated. -/
theorem fastPath_returns_cached_token
    (auth : Option RuntimeAuthState) (fileCredentials : Option QwenCredentials)
    (refresher : String → Option QwenCredentials) (now : Int) (st : TokenCacheState)
    (hfast : cacheFastPath st now = true) :
    (getValidAccessToken auth fileCredentials refresher now st).result = st.cachedToken ∧
    (getValidAccessToken auth fileCredentials refresher now st).cache = st ∧
    (getValidAccessToken auth fileCredentials refresher now st).refreshCalls = [] ∧
    (getValidAccessToken auth fileCredentials refresher now st).savedCreds = [] ∧
    (getValidAccessToken auth fileCredentials refresher now st).fileReads = 1 := by
  unfold getValidAccessToken
  dsimp only
  rw [hfast]
  simp

/-- Witness for the amended C4 at the concrete fast-path state. -/
theorem fastPath_returns_cached_token_witness :
    (getValidAccessToken none none (fun _ => none) 1000 stC4).result = some "tok" ∧
    (getValidAccessToken none none (fun _ => none) 1000 stC4).cache = stC4 ∧
    (getValidAccessToken none none (fun _ => none) 1000 stC4).refreshCalls = [] := by
  have h := fastPath_returns_cached_token none none (fun _ => none) 1000 stC4 (by decide)
  exact ⟨h.1, h.2.1, h.2.2.1⟩

/-! ## Claim C5 -/

theorem tryRefresh_success_from_refresher (refresher : String → Option QwenCredentials) :
    ∀ (l calls : List String) (cred : QwenCredentials),
      tryRefreshCandidates refresher l = (calls, some cred) →
      ∃ c, refresher c = some cred := by
  intro l
  induction l with
  | nil =>
    intro calls cred h
    rw [tryRefreshCandidates] at h
    injection h with h1 h2
    exact Option.noConfusion h2
  | cons c rest ih =>
    intro calls cred h
    rw [tryRefreshCandidates] at h
    rcases hr : refresher c with _ | cr <;> rw [hr] at h
    · rcases htail : tryRefreshCandidates refresher rest with ⟨tc, tr⟩
      rw [htail] at h
      dsimp only at h
      injection h with h1 h2
      exact ih tc cred (by rw [htail, h2])
    · injection h with h1 h2
      injection h2 with h3
      exact ⟨c, by rw [hr, h3]⟩

theorem resolveFallThrough_result_cases (merged : MergedCredentials) (now : Int)
    (st : TokenCacheState) (calls : List String) :
    (resolveFallThrough merged now st calls).result = none ∨
    (resolveFallThrough merged now st calls).result = merged.accessToken := by
  unfold resolveFallThrough
  dsimp only
  split
  · exact Or.inl rfl
  · split
    · exact Or.inr rfl
    · exact Or.inr rfl

/-- After a cache reset, `getValidAccessToken` never returns an empty-string
token, provided the refresh oracle honours the non-empty-token invariant. -/
theorem getValidAccessToken_reset_result_ne_empty
    (auth : Option RuntimeAuthState) (fileCredentials : Option QwenCredentials)
    (refresher : String → Option QwenCredentials) (now : Int)
    (hrf : ∀ s c, refresher s = some c → c.accessToken ≠ "") (t : String)
    (h : (getValidAccessToken auth fileCredentials refresher now resetTokenCache).result =
      some t) :
    t ≠ "" := by
  have hmerge := mergeAccessToken_ne_empty (runtimeAuthToCredentials auth) fileCredentials
  set merged := mergeCredentialSources (runtimeAuthToCredentials auth) fileCredentials with hm
  have hf : cacheFastPath resetTokenCache now = false := by
    simp [cacheFastPath, jsPresent, resetTokenCache]
  unfold getValidAccessToken at h
  dsimp only at h
  rw [← hm, hf] at h
  simp only [Bool.false_eq_true, if_false] at h
  have hfall : ∀ calls, (resolveFallThrough merged now resetTokenCache calls).result = some t →
      t ≠ "" := by
    intro calls hc
    rcases resolveFallThrough_result_cases merged now resetTokenCache calls with hx | hx
    · rw [hx] at hc; exact Option.noConfusion hc
    · rw [hx] at hc; exact hmerge t hc
  by_cases hsr : shouldRefreshB merged now
  · rw [if_pos hsr] at h
    rcases htr : tryRefreshCandidates refresher merged.refreshCandidates with ⟨calls, res⟩
    rw [htr] at h
    cases res with
    | some cred =>
      dsimp only at h
      injection h with h1
      obtain ⟨c, hc⟩ := tryRefresh_success_from_refresher refresher _ calls cred htr
      rw [← h1]
      exact hrf c cred hc
    | none =>
      dsimp only at h
      exact hfall calls h
  · rw [if_neg hsr] at h
    exact hfall [] h

/-- C5: for every dispatched call whose response status is 401 or 403, the
wrapper invalidates the token cache and re-resolves a token (the final cache
and refresh-call trace are those of `getValidAccessToken` run on the reset
cache); exactly one retry bearing the new `Authorization` token is issued iff
the re-resolved token is non-null and different from the original token, and
its response is returned; otherwise the original response is returned
unchanged with no retries; the queue state is untouched and nothing sleeps. -/
theorem fetch401_behavior
    (auth : Option RuntimeAuthState) (fileCredentials : Option QwenCredentials)
    (refresher : String → Option QwenCredentials) (now : Int)
    (qs : RequestQueueState) (st : TokenCacheState) (accessToken : String)
    (response : HttpResponse) (fetchAgain : String → HttpResponse)
    (hstatus : response.status = 401 ∨ response.status = 403)
    (hrf : ∀ s c, refresher s = some c → c.accessToken ≠ "") :
    ((handleResponse auth fileCredentials refresher now qs st accessToken response
        fetchAgain).retries ≠ [] ↔
      (∃ t, (getValidAccessToken auth fileCredentials refresher now resetTokenCache).result =
          some t ∧ t ≠ accessToken)) ∧
    (∀ t, (getValidAccessToken auth fileCredentials refresher now resetTokenCache).result =
        some t → t ≠ accessToken →
      (handleResponse auth fileCredentials refresher now qs st accessToken response
          fetchAgain).response = fetchAgain t ∧
      (handleResponse auth fileCredentials refresher now qs st accessToken response
          fetchAgain).retries = [t]) ∧
    (((getValidAccessToken auth fileCredentials refresher now resetTokenCache).result = none ∨
      (getValidAccessToken auth fileCredentials refresher now resetTokenCache).result =
        some accessToken) →
      (handleResponse auth fileCredentials refresher now qs st accessToken response
          fetchAgain).response = response ∧
      (handleResponse auth fileCredentials refresher now qs st accessToken response
          fetchAgain).retries = []) ∧
    (handleResponse auth fileCredentials refresher now qs st accessToken response
        fetchAgain).cache =
      (getValidAccessToken auth fileCredentials refresher now resetTokenCache).cache ∧
    (handleResponse auth fileCredentials refresher now qs st accessToken response
        fetchAgain).refreshCalls =
      (getValidAccessToken auth fileCredentials refresher now resetTokenCache).refreshCalls ∧
    (handleResponse auth fileCredentials refresher now qs st accessToken response
        fetchAgain).queue = qs ∧
    (handleResponse auth fileCredentials refresher now qs st accessToken response
        fetchAgain).sleeps = [] := by
  have hcond : (response.status == 401 || response.status == 403) = true := by
    rcases hstatus with hx | hx <;> simp [hx]
  set resolved := getValidAccessToken auth fileCredentials refresher now resetTokenCache
    with hrv
  unfold handleResponse
  rw [← hrv, if_pos hcond]
  dsimp only
  rcases hres : resolved.result with _ | t
  · try rw [hres]
    dsimp only
    refine ⟨by simp, ?_, fun _ => ⟨rfl, rfl⟩, rfl, rfl, rfl, rfl⟩
    intro t ht
    exact fun _ => Option.noConfusion ht
  · try rw [hres]
    have htne : t ≠ "" := getValidAccessToken_reset_result_ne_empty auth fileCredentials
      refresher now hrf t (by rw [← hrv]; exact hres)
    have hp : jsPresent (some t) = true := by simp [jsPresent, htne]
    by_cases hacc : t = accessToken
    · have hcnd : (jsPresent (some t) && !(t == accessToken)) = false := by
        simp [hacc]
      try dsimp only
      rw [hcnd]
      simp only [Bool.false_eq_true, if_false]
      refine ⟨?_, ?_, fun _ => ⟨by trivial, by trivial⟩, by trivial, by trivial, by trivial,
        by trivial⟩
      · constructor
        · intro hno; exact absurd rfl hno
        · rintro ⟨s, hs, hsne⟩
          injection hs with h1
          exact absurd (h1 ▸ hacc) hsne
      · intro s hs hsne
        injection hs with h1
        exact absurd (h1 ▸ hacc) hsne
    · have hcnd : (jsPresent (some t) && !(t == accessToken)) = true := by
        simp [hp, hacc]
      try dsimp only
      rw [hcnd]
      simp only [if_pos]
      refine ⟨?_, ?_, ?_, by trivial, by trivial, by trivial, by trivial⟩
      · constructor
        · intro _; exact ⟨t, rfl, hacc⟩
        · intro _; simp
      · intro s hs _
        injection hs with h1
        exact ⟨by rw [h1], by rw [h1]⟩
      · intro hcase
        rcases hcase with hx | hx
        · exact Option.noConfusion hx
        · injection hx with h1
          exact absurd h1 hacc

/-- Concrete runtime auth state for the C5 witness. -/
def authC5 : RuntimeAuthState :=
  { type := "oauth", access := some "oldTok", refresh := some "r1", expires := some 1000 }

/-- Concrete refresh oracle for the C5 witness: "r1" yields a fresh token. -/
def refresherC5 : String → Option QwenCredentials :=
  fun s => if s = "r1" then some { accessToken := "newTok", expiryDate := some 999999 } else none

/-- Witness for C5: a 401 response followed by a successful re-resolution to
the different token "newTok" produces exactly one retry carrying it. -/
theorem fetch401_behavior_witness :
    (handleResponse (some authC5) none refresherC5 1000 { lastDispatchMillis := 777 }
        resetTokenCache "oldTok" { status := 401 } (fun _ => { status := 200 })).response =
      { status := 200 } ∧
    (handleResponse (some authC5) none refresherC5 1000 { lastDispatchMillis := 777 }
        resetTokenCache "oldTok" { status := 401 } (fun _ => { status := 200 })).retries =
      ["newTok"] := by
  have hrf : ∀ s c, refresherC5 s = some c → c.accessToken ≠ "" := by
    intro s c h
    unfold refresherC5 at h
    split at h
    · cases h; decide
    · exact Option.noConfusion h
  have h := fetch401_behavior (some authC5) none refresherC5 1000
    { lastDispatchMillis := 777 } resetTokenCache "oldTok" { status := 401 }
    (fun _ => { status := 200 }) (Or.inl rfl) hrf
  have h2 := h.2.1 "newTok" (by decide) (by decide)
  exact ⟨h2.1, h2.2⟩

/-! ## Claim C6 -/

/-- C6 counterexample: a 429 response carrying the unparsable header
`Retry-After: soon` does not default to a 60-second wait: `parseInt` yields
`NaN`, the `setTimeout` delay collapses to 0, and the retry is issued with no
suspension, refuting "defaulting to 60 when the header is absent or
unparsable". -/
theorem retryAfter_unparsable_counterexample :
    parseIntJs "soon" = none ∧
    retryAfterWait (some "soon") = 0 ∧
    (handleResponse none none (fun _ => none) 0 { lastDispatchMillis := 0 } resetTokenCache
        "tok" { status := 429, retryAfter := some "soon" }
        (fun _ => { status := 200 })).sleeps = [0] ∧
    (0 : Int) ≠ 60000 := by
  decide

/-- C6 (amended): for every dispatched call whose response status is 429, the
wrapper suspends for `retryAfterWait` of the `Retry-After` header — 60 s when
the header is absent or empty, `max 0 (n * 1000)` ms when it parses to `n`,
and 0 (an immediate retry, not 60 s) when it is non-empty but unparsable —
then retries the same request exactly once with identical headers, issued
directly: the queue state (`lastDispatchMillis`) and token cache are
untouched, and no second retry occurs even if the retried response is again
429 (`fetchAgain` is arbitrary and `retries` has exactly one entry). -/
theorem fetch429_retries_once
    (auth : Option RuntimeAuthState) (fileCredentials : Option QwenCredentials)
    (refresher : String → Option QwenCredentials) (now : Int)
    (qs : RequestQueueState) (st : TokenCacheState) (accessToken : String)
    (response : HttpResponse) (fetchAgain : String → HttpResponse)
    (hstatus : response.status = 429) :
    (handleResponse auth fileCredentials refresher now qs st accessToken response
        fetchAgain).response = fetchAgain accessToken ∧
    (handleResponse auth fileCredentials refresher now qs st accessToken response
        fetchAgain).retries = [accessToken] ∧
    (handleResponse auth fileCredentials refresher now qs st accessToken response
        fetchAgain).sleeps = [retryAfterWait response.retryAfter] ∧
    (handleResponse auth fileCredentials refresher now qs st accessToken response
        fetchAgain).queue = qs ∧
    (handleResponse auth fileCredentials refresher now qs st accessToken response
        fetchAgain).cache = st ∧
    (handleResponse auth fileCredentials refresher now qs st accessToken response
        fetchAgain).savedCreds = [] ∧
    (handleResponse auth fileCredentials refresher now qs st accessToken response
        fetchAgain).refreshCalls = [] ∧
    retryAfterWait none = 60000 ∧ retryAfterWait (some "") = 60000 ∧
    (∀ s n, parseIntJs s = some n → retryAfterWait (some s) = max 0 (n * 1000)) ∧
    (∀ s, s ≠ "" → parseIntJs s = none → retryAfterWait (some s) = 0) := by
  have hc1 : (response.status == 401 || response.status == 403) = false := by
    simp [hstatus]
  have hc2 : (response.status == 429) = true := by simp [hstatus]
  unfold handleResponse
  rw [hc1, hc2]
  dsimp only
  refine ⟨rfl, rfl, rfl, rfl, rfl, rfl, rfl, by decide, by decide, ?_, ?_⟩
  · intro s n hp
    by_cases hs : s = ""
    · rw [hs] at hp
      have h0 : parseIntJs "" = none := by decide
      rw [h0] at hp
      exact Option.noConfusion hp
    · simp [retryAfterWait, hs, hp]
  · intro s hs hp
    simp [retryAfterWait, hs, hp]

/-- Witness for the amended C6: `Retry-After: 2` yields a single retry after
a 2000 ms suspension, with queue state and cache untouched. -/
theorem fetch429_retries_once_witness :
    (handleResponse none none (fun _ => none) 0 { lastDispatchMillis := 5 } resetTokenCache
        "tok" { status := 429, retryAfter := some "2" }
        (fun _ => { status := 429, retryAfter := some "2" })).sleeps = [2000] ∧
    (handleResponse none none (fun _ => none) 0 { lastDispatchMillis := 5 } resetTokenCache
        "tok" { status := 429, retryAfter := some "2" }
        (fun _ => { status := 429, retryAfter := some "2" })).retries = ["tok"] ∧
    (handleResponse none none (fun _ => none) 0 { lastDispatchMillis := 5 } resetTokenCache
        "tok" { status := 429, retryAfter := some "2" }
        (fun _ => { status := 429, retryAfter := some "2" })).queue =
      { lastDispatchMillis := 5 } := by
  have h := fetch429_retries_once none none (fun _ => none) 0 { lastDispatchMillis := 5 }
    resetTokenCache "tok" { status := 429, retryAfter := some "2" }
    (fun _ => { status := 429, retryAfter := some "2" }) rfl
  refine ⟨?_, h.2.1, h.2.2.2.1⟩
  rw [h.2.2.1]
  decide

/-! ## Claim C7 (request governor, modelled from the spec) -/

theorem runQueue_length (cfg : QueueConfig) :
    ∀ (jitters : List Int) (now lastDispatchMillis : Int),
      (runQueue cfg now lastDispatchMillis jitters).length = jitters.length := by
  intro jitters
  induction jitters with
  | nil => intro now last; rfl
  | cons j rest ih =>
    intro now last
    rw [runQueue]
    simp [ih]

theorem consecutiveGapsWithin_tail (lo hi : Int) (x : Int) (l : List Int)
    (h : consecutiveGapsWithin lo hi (x :: l)) : consecutiveGapsWithin lo hi l := by
  cases l with
  | nil => trivial
  | cons y r => exact h.2

theorem consecutiveGapsWithin_chain (lo hi : Int) (hlo : 0 < lo) :
    ∀ l : List Int, consecutiveGapsWithin lo hi l → List.Chain' (· < ·) l := by
  intro l
  induction l with
  | nil => intro _; simp
  | cons x r ih =>
    intro h
    cases r with
    | nil => simp
    | cons y r2 =>
      refine List.Chain'.cons ?_ (ih h.2)
      have := h.1.1
      omega

theorem runQueue_gaps_aux (start : Int) :
    ∀ (jitters : List Int),
      (∀ j ∈ jitters, qwenQueueConfig.jitterMinMillis ≤ j ∧ j ≤ qwenQueueConfig.jitterMaxMillis) →
      consecutiveGapsWithin 1000 2500 (start :: runQueue qwenQueueConfig start start jitters) := by
  intro jitters
  induction jitters generalizing start with
  | nil => intro _; trivial
  | cons j rest ih =>
    intro hj
    rw [runQueue]
    have hjj := hj j (by simp)
    simp only [qwenQueueConfig] at hjj
    constructor
    · unfold enqueueDispatch qwenQueueConfig
      dsimp only
      omega
    · exact ih _ (fun x hx => hj x (by simp [hx]))

/-- C7 (modelled from the spec, `src/plugin/request-queue.ts` being absent
from the snapshot): N zero-duration tasks submitted back-to-back execute one
at a time in FIFO submission order (one dispatch per jitter sample, at
strictly increasing timestamps), every gap between consecutive dispatch
timestamps lies in `[minIntervalMillis, minIntervalMillis + jitterMaxMillis]`
= `[1000, 2500]` when each jitter sample lies in `[500, 1500]`, and each
dispatch is computed as
`now + max(0, minIntervalMillis - (now - lastDispatchMillis)) + jitter`. -/
theorem requestQueue_pacing (start : Int) (jitters : List Int)
    (hj : ∀ j ∈ jitters,
      qwenQueueConfig.jitterMinMillis ≤ j ∧ j ≤ qwenQueueConfig.jitterMaxMillis) :
    consecutiveGapsWithin 1000 2500 (runQueue qwenQueueConfig start start jitters) ∧
    (runQueue qwenQueueConfig start start jitters).length = jitters.length ∧
    List.Chain' (· < ·) (runQueue qwenQueueConfig start start jitters) ∧
    (∀ lastDispatchMillis now j, enqueueDispatch qwenQueueConfig lastDispatchMillis now j =
      now + max 0 (qwenQueueConfig.minIntervalMillis - (now - lastDispatchMillis)) + j) := by
  have hg := runQueue_gaps_aux start jitters hj
  refine ⟨consecutiveGapsWithin_tail 1000 2500 start _ hg,
    runQueue_length qwenQueueConfig jitters start start,
    consecutiveGapsWithin_chain 1000 2500 (by omega) _
      (consecutiveGapsWithin_tail 1000 2500 start _ hg),
    fun _ _ _ => rfl⟩

/-- Witness for C7 at concrete jitter samples. -/
theorem requestQueue_pacing_witness :
    consecutiveGapsWithin 1000 2500 (runQueue qwenQueueConfig 0 0 [500, 1500, 700]) ∧
    (runQueue qwenQueueConfig 0 0 [500, 1500, 700]).length = 3 := by
  have h := requestQueue_pacing 0 [500, 1500, 700] (by decide)
  exact ⟨h.1, h.2.1⟩

/-! ## Claim C8 -/

/-- The credentials delivered by the successful poll in the C8 scenario. -/
def credC8 : QwenCredentials := { accessToken := "tok8" }

/-- C8 counterexample: with `expires_in = 1800` s (timeout 1800000 ms),
margin 3000 ms and initial interval 5000 ms, three `authorization_pending`
rounds followed by a success terminate successfully — but the loop sleeps
`interval + margin` before every poll, including the first and the successful
one, so the elapsed time at the successful exchange is 4 × (5000 + 3000) =
32000 ms, not ≈ 3 × (5+3) s = 24000 ms as the claim states. -/
theorem pollLoop_elapsed_counterexample :
    pollLoop 1800000 3000
        [.pendingErr, .pendingErr, .pendingErr, .success credC8] 0 5000 =
      .success credC8 32000 ∧
    (32000 : Int) ≠ 3 * (5000 + 3000) := by
  decide

/-- C8 (amended): in the device-flow polling loop (interval 5 s, fixed margin
3 s, interval kept on `authorization_pending`, failure once elapsed time
reaches the `expires_in` deadline), a run of three consecutive
`authorization_pending` responses followed by a success (with
`expires_in = 1800`) terminates with success, and the total elapsed time
before the successful token exchange is 4 × (5+3) = 32 seconds — the loop
sleeps before every poll, including the first; an all-pending run is cut off
as failed at the 1800000 ms deadline. -/
theorem pollLoop_three_pending_success :
    pollLoop 1800000 3000
        [.pendingErr, .pendingErr, .pendingErr, .success credC8] 0 5000 =
      .success credC8 32000 ∧
    (32000 : Int) = 4 * (5000 + 3000) ∧
    pollLoop 1800000 3000 (List.replicate 226 PollOutcome.pendingErr) 0 5000 =
      .failed 1800000 := by
  decide

/-! ## Claim C9 -/

/-- C9 counterexample: a credential file holding only a refresh token — no
`access_token` — makes `loadCredentials` return a credential whose
`accessToken` is the empty string (`parsed.access_token || ''`), and the
analogous runtime auth state makes `runtimeAuthToCredentials` do the same:
the "non-empty accessToken" invariant is violated by both producers. -/
theorem loadCredentials_empty_token_counterexample :
    loadCredentials (some { refresh_token := some "R" }) =
      some { accessToken := "", tokenType := some "Bearer", refreshToken := some "R" } ∧
    runtimeAuthToCredentials (some { type := "oauth", refresh := some "R" }) =
      some { accessToken := "", refreshToken := some "R", tokenType := some "Bearer" } := by
  decide

/-- C9 (amended): every credential returned by the credential-producing
operations (`loadCredentials`, `runtimeAuthToCredentials`) has a non-empty
`accessToken` or a present (non-empty) `refreshToken` — the source guards
only reject records where both are missing or empty, so a refresh-only
credential with an empty `accessToken` is returned (see counterexample). -/
theorem credential_producers_token_or_refresh :
    (∀ (p : Option StoredCredentialsFile) (c : QwenCredentials),
      loadCredentials p = some c → c.accessToken ≠ "" ∨ jsPresent c.refreshToken = true) ∧
    (∀ (a : Option RuntimeAuthState) (c : QwenCredentials),
      runtimeAuthToCredentials a = some c →
        c.accessToken ≠ "" ∨ jsPresent c.refreshToken = true) := by
  constructor
  · intro p c h
    cases p with
    | none => exact Option.noConfusion h
    | some q =>
      rw [loadCredentials] at h
      split at h
      · exact Option.noConfusion h
      · rename_i hguard
        injection h with h1
        rcases ha : jsPresent q.access_token with _ | _
        · rcases hr : jsPresent q.refresh_token with _ | _
          · exact absurd (by simp [ha, hr]) hguard
          · right
            rw [← h1]
            exact hr
        · left
          rw [← h1]
          rcases hq : q.access_token with _ | s
          · rw [hq] at ha; simp [jsPresent] at ha
          · rw [hq] at ha
            simp only [jsPresent, Bool.not_eq_true'] at ha
            simpa using ha
  · intro a c h
    cases a with
    | none => exact Option.noConfusion h
    | some q =>
      rw [runtimeAuthToCredentials] at h
      split at h
      · exact Option.noConfusion h
      · split at h
        · exact Option.noConfusion h
        · rename_i hguard
          injection h with h1
          rcases ha : jsPresent q.access with _ | _
          · rcases hr : jsPresent q.refresh with _ | _
            · exact absurd (by simp [ha, hr]) hguard
            · right
              rw [← h1]
              exact hr
          · left
            rw [← h1]
            rcases hq : q.access with _ | s
            · rw [hq] at ha; simp [jsPresent] at ha
            · rw [hq] at ha
              simp only [jsPresent, Bool.not_eq_true'] at ha
              simpa using ha

/-- The refresh-only credential produced in the C9 counterexample. -/
def credC9 : QwenCredentials :=
  { accessToken := "", tokenType := some "Bearer", refreshToken := some "R" }

/-- Witness for the amended C9 at a refresh-only file record. -/
theorem credential_producers_token_or_refresh_witness :
    credC9.accessToken ≠ "" ∨ jsPresent credC9.refreshToken = true := by
  have h := credential_producers_token_or_refresh
  exact h.1 (some { refresh_token := some "R" }) credC9 (by decide)

/-! ## Claim C10 -/

theorem jsOrStringDefault_idem (x : Option String) :
    jsOrStringDefault (some (jsOrStringDefault x "Bearer")) "Bearer" =
      jsOrStringDefault x "Bearer" := by
  rcases x with _ | v
  · decide
  · by_cases hv : v = "" <;> simp [jsOrStringDefault, hv]

/-- C10: round-trip of the credential store — for every credential with a
non-empty `accessToken`, `saveCredentials` followed by `loadCredentials`
(with no intervening external write) yields a credential whose
`accessToken`, `refreshToken`, `resourceUrl`, `expiryDate` and `scope` equal
those saved, and whose `tokenType` is the saved `tokenType`, or "Bearer" when
the saved `tokenType` was absent or empty. -/
theorem save_load_roundtrip (c : QwenCredentials) (hne : c.accessToken ≠ "") :
    loadCredentials (some (saveCredentials c)) =
      some { accessToken := c.accessToken
           , tokenType := some (jsOrStringDefault c.tokenType "Bearer")
           , refreshToken := c.refreshToken
           , resourceUrl := c.resourceUrl
           , expiryDate := c.expiryDate
           , scope := c.scope } ∧
    ((c.tokenType = none ∨ c.tokenType = some "") →
      jsOrStringDefault c.tokenType "Bearer" = "Bearer") ∧
    (∀ t, c.tokenType = some t → t ≠ "" → jsOrStringDefault c.tokenType "Bearer" = t) := by
  refine ⟨?_, ?_, ?_⟩
  · have hg : (!jsPresent (saveCredentials c).access_token &&
        !jsPresent (saveCredentials c).refresh_token) = false := by
      simp [saveCredentials, jsPresent, hne]
    rw [loadCredentials, if_neg (by rw [hg]; simp)]
    simp [saveCredentials, jsOrStringDefault_idem]
  · intro hcase
    rcases hcase with hx | hx <;> rw [hx] <;> simp [jsOrStringDefault]
  · intro t ht htne
    rw [ht]
    simp [jsOrStringDefault, htne]

/-- Concrete credential for the C10 witness: empty saved `tokenType`
defaults to "Bearer" on reload; all other fields survive unchanged. -/
def credC10 : QwenCredentials :=
  { accessToken := "A", tokenType := some "", refreshToken := some "R"
  , expiryDate := some 42, resourceUrl := some "u", scope := some "s" }

/-- Witness for C10 at a concrete credential. -/
theorem save_load_roundtrip_witness :
    loadCredentials (some (saveCredentials credC10)) =
      some { accessToken := "A", tokenType := some "Bearer", refreshToken := some "R"
           , expiryDate := some 42, resourceUrl := some "u", scope := some "s" } := by
  have h := save_load_roundtrip credC10 (by decide)
  exact h.1

end QwenProxy
